import Mathlib

/-!
Shallow embedding of the telegram channel history export script
(`history.py`): chat resolution by substring match, history sorting and
truncation, per-message normalization into flat JSON-like records, and
serialization of the resulting document.

Python-level runtime failures (IndexError from list indexing,
AttributeError from attribute access on None, UnboundLocalError from
reading a never-assigned local) are modelled as values of `PyError`.
The constructors `notFoundError` and `unknownSenderError` never occur in
the embedded code; they exist so that statements about the error
taxonomy of the documentation can be expressed and compared with what
the code actually produces.
-/

deriving instance DecidableEq for Except

namespace TgHistory

/-- Errors the embedded Python code can raise, plus two taxonomy-only
constructors used to state documentation-level properties. -/
inductive PyError where
  | indexError
  | attributeError
  | unboundLocalError
  | notFoundError
  | unknownSenderError
deriving DecidableEq

/-- A datetime at second granularity, as compared by Python `datetime`
objects (lexicographically by components; Telegram message dates carry
no sub-second part). -/
structure Date where
  year : Nat
  month : Nat
  day : Nat
  hour : Nat
  minute : Nat
  second : Nat
deriving DecidableEq

def Date.toList (d : Date) : List Nat :=
  [d.year, d.month, d.day, d.hour, d.minute, d.second]

/-- Lexicographic less-or-equal on lists of naturals; the order Python
uses to compare datetime component tuples. -/
def lexLe : List Nat → List Nat → Bool
  | [], _ => true
  | _ :: _, [] => false
  | a :: as, b :: bs => if a < b then true else if b < a then false else lexLe as bs

def dateLe (a b : Date) : Bool := lexLe a.toList b.toList

/-- A dialog entry as seen by `client.get_dialogs()`: identifier and
display name. -/
structure Chat where
  id : Int
  name : String
deriving DecidableEq

/-- The two sender shapes the script recognizes (`telethon` User and
Channel). A Python `None` sender is `Option.none` at the use site. -/
inductive Sender where
  | user (first_name last_name username : Option String)
  | channel (title : String) (username : Option String)
deriving DecidableEq

def senderUsername : Sender → Option String
  | Sender.user _ _ u => u
  | Sender.channel _ u => u

/-- A raw message as returned by `client.get_messages`. `message` is the
body text, `None` for service messages. -/
structure Msg where
  id : Int
  date : Date
  sender : Option Sender
  sender_id : Option Int
  chat_id : Option Int
  message : Option String
  voice : Bool
  views : Option Int
  reply_to_msg_id : Option Int
deriving DecidableEq

/-- JSON-serializable values occurring in the output records. -/
inductive JVal where
  | jnull
  | jstr (s : String)
  | jint (n : Int)
deriving DecidableEq

open JVal

def joptInt : Option Int → JVal
  | none => jnull
  | some n => jint n

def joptStr : Option String → JVal
  | none => jnull
  | some s => jstr s

/-- One exported record: the dict literal of the script, as an ordered
key/value list. -/
def Record : Type := List (String × JVal)

instance : DecidableEq Record := inferInstanceAs (DecidableEq (List (String × JVal)))

/-- Ordered lookup of a key in a record, Python dict access. -/
def field : Record → String → Option JVal
  | [], _ => none
  | p :: ps, k => if p.1 = k then some p.2 else field ps k

/-- Python `str()` applied to an optional string: `str(None)` is the
four-character string "None". -/
def pyStr : Option String → String
  | none => "None"
  | some s => s

/-- Python truthiness of an optional string: `None` and the empty string
are falsy. -/
def truthyStr : Option String → Bool
  | none => false
  | some s => !s.isEmpty

/-- Does `hay` contain `needle` as a contiguous run, checking every
suffix for `needle` as a prefix. -/
def containsList (needle : List Char) : List Char → Bool
  | [] => needle.isEmpty
  | c :: t => needle.isPrefixOf (c :: t) || containsList needle t

/-- Python `in` on strings: substring containment. -/
def strContains (hay needle : String) : Bool :=
  containsList needle.toList hay.toList

/-- Python list indexing `l[i]` with negative-index wraparound;
out-of-range raises IndexError. -/
def pyIndex {α : Type} (l : List α) (i : Int) : Except PyError α :=
  let j : Int := if i < 0 then i + l.length else i
  if j < 0 then Except.error PyError.indexError
  else
    match l[j.toNat]? with
    | some a => Except.ok a
    | none => Except.error PyError.indexError

/-- Embedding of `find_chat_by_name` (history.py lines 137-153): filter
dialogs whose name contains the query; with more than one match the
interactive `int(input(...))` choice is the `choice` parameter and the
chosen chat is `found_chats[choice - 1]`; otherwise `found_chats[0]`.
The preview printing of each candidate's last message is output-only and
does not affect the returned chat. -/
def find_chat_by_name (chats : List Chat) (chat_name : String) (choice : Int) :
    Except PyError Chat :=
  let found_chats := chats.filter (fun chat => strContains chat.name chat_name)
  if found_chats.length > 1 then
    pyIndex found_chats (choice - 1)
  else
    pyIndex found_chats 0

/-- Zero-pad a natural to a given width, as strftime does. -/
def zfill (w : Nat) (n : Nat) : String :=
  let s := toString n
  if s.length < w then String.mk (List.replicate (w - s.length) '0') ++ s else s

/-- strftime with format "%Y-%m-%d %H:%M:%S" (history.py line 210). -/
def dateFormat (d : Date) : String :=
  zfill 4 d.year ++ "-" ++ zfill 2 d.month ++ "-" ++ zfill 2 d.day ++ " " ++
    zfill 2 d.hour ++ ":" ++ zfill 2 d.minute ++ ":" ++ zfill 2 d.second

/-- State of the loop locals `sender_type` and `sender_name` across
iterations of the message loop: Python function locals persist between
iterations, and the sender dispatch has no default branch, so a later
iteration can observe values assigned by an earlier one, or find them
never assigned at all. -/
structure LoopState where
  sender_type : Option String
  sender_name : Option String
deriving DecidableEq

/-- The dict literal of history.py lines 212-225, built once
`sender_type`/`sender_name` resolved to `t`/`n` and the sender object to
`s`. -/
def mkRecord (chat : Chat) (t n : String) (s : Sender) (m : Msg) : Record :=
  [("message_id", jint m.id),
   ("chat_name", jstr chat.name),
   ("date", jstr (dateFormat m.date)),
   ("chat_id", joptInt m.chat_id),
   ("message_type", jstr (if m.voice then "voice" else "text")),
   ("sender_type", jstr t),
   ("sender_name", jstr n),
   ("sender_username", joptStr (senderUsername s)),
   ("sender_id", joptInt m.sender_id),
   ("message", jstr (pyStr m.message)),
   ("views", joptInt m.views),
   ("reply_to_msg_id", joptInt m.reply_to_msg_id)]

/-- Evaluation of the dict literal under loop state `st`: the values are
evaluated left to right, so reading an unassigned `sender_type` or
`sender_name` raises UnboundLocalError before `message.sender.username`
can raise AttributeError on a `None` sender. The keys before
`sender_type` never raise. -/
def buildRecord (chat : Chat) (st : LoopState) (m : Msg) :
    Except PyError (LoopState × Option Record) :=
  match st.sender_type with
  | none => Except.error PyError.unboundLocalError
  | some t =>
    match st.sender_name with
    | none => Except.error PyError.unboundLocalError
    | some n =>
      match m.sender with
      | none => Except.error PyError.attributeError
      | some s => Except.ok (st, some (mkRecord chat t n s m))

/-- One iteration of the message loop (history.py lines 188-235): sender
dispatch, then the record build. A user sender with both name parts
falsy hits `continue` (record excluded) after having assigned
`sender_type = "user"`. A sender that is neither a User nor a Channel
takes no branch, leaving both loop locals as they were. -/
def processMessage (chat : Chat) (st : LoopState) (m : Msg) :
    Except PyError (LoopState × Option Record) :=
  match m.sender with
  | some (Sender.user fn ln _) =>
    if truthyStr fn && truthyStr ln then
      buildRecord chat ⟨some "user", some (pyStr fn ++ " " ++ pyStr ln)⟩ m
    else if truthyStr fn && !truthyStr ln then
      buildRecord chat ⟨some "user", some (pyStr fn)⟩ m
    else if !truthyStr fn && truthyStr ln then
      buildRecord chat ⟨some "user", some (pyStr ln)⟩ m
    else
      Except.ok ({ st with sender_type := some "user" }, none)
  | some (Sender.channel title _) =>
    buildRecord chat ⟨some "channel", some title⟩ m
  | none =>
    buildRecord chat st m

/-- The message loop: appends each produced record in order, skips
excluded messages, and aborts on a raised error. -/
def processMessages (chat : Chat) (st : LoopState) :
    List Msg → Except PyError (List Record)
  | [] => Except.ok []
  | m :: ms =>
    match processMessage chat st m with
    | Except.error e => Except.error e
    | Except.ok (st2, none) => processMessages chat st2 ms
    | Except.ok (st2, some r) =>
      match processMessages chat st2 ms with
      | Except.error e => Except.error e
      | Except.ok recs => Except.ok (r :: recs)

/-- Comparison key of the sort at history.py line 185:
`sorted(history, key=lambda x: x.date)` compares datetimes. -/
def msgLe (a b : Msg) : Bool := lexLe a.date.toList b.date.toList

/-- The comparison as a decidable relation, for `insertionSort`. -/
def msgLeP (a b : Msg) : Prop := msgLe a b = true

instance : DecidableRel msgLeP := fun a b =>
  inferInstanceAs (Decidable (msgLe a b = true))

/-- The sort of history.py line 185. Python `sorted` is a stable sort
keyed on the date; `insertionSort` is the stable sort over the same
(total, transitive) comparison, hence the same function on lists. -/
def sortHistory (history : List Msg) : List Msg := history.insertionSort msgLeP

/-- Embedding of `main` (history.py lines 173-248) up to the document in
memory: resolve the chat, then sort the fetched history, truncate to
`limit`, and run the normalization loop with both sender locals unbound.
The fetched history itself is an input (the remote service's reply). -/
def main (chats : List Chat) (chat_name : String) (choice : Int)
    (history : List Msg) (limit : Nat) : Except PyError (List Record) :=
  match find_chat_by_name chats chat_name choice with
  | Except.error e => Except.error e
  | Except.ok chat =>
    processMessages chat ⟨none, none⟩ ((sortHistory history).take limit)

/-- The key list every emitted record carries, in dict-literal order. -/
def recordKeys : List String :=
  ["message_id", "chat_name", "date", "chat_id", "message_type", "sender_type",
   "sender_name", "sender_username", "sender_id", "message", "views",
   "reply_to_msg_id"]

/-- A message whose sender is a user with both name parts falsy: the
`continue` policy case. -/
def isNamelessUser (m : Msg) : Bool :=
  match m.sender with
  | some (Sender.user fn ln _) => !truthyStr fn && !truthyStr ln
  | _ => false

/-- JSON string escaping for the characters that occur in exported
fields, as the default `json.dumps` encoder emits them. -/
def escapeChar (c : Char) : String :=
  if c = '"' then "\\\""
  else if c = '\\' then "\\\\"
  else if c = '\n' then "\\n"
  else if c = '\t' then "\\t"
  else if c = '\r' then "\\r"
  else String.singleton c

def escapeString (s : String) : String :=
  String.join (s.toList.map escapeChar)

def jvalDump : JVal → String
  | jnull => "null"
  | jstr s => "\"" ++ escapeString s ++ "\""
  | jint n => toString n

def fieldDump (p : String × JVal) : String :=
  "        \"" ++ escapeString p.1 ++ "\": " ++ jvalDump p.2

def recordDump (r : Record) : String :=
  "    \x7b\n" ++ String.intercalate ",\n" (r.map fieldDump) ++ "\n    \x7d"

/-- Model of `json.dumps(messages, indent=4)` (history.py line 240):
the full document text written to the output file. -/
def json_dumps (recs : List Record) : String :=
  if recs.isEmpty then "[]"
  else "[\n" ++ String.intercalate ",\n" (recs.map recordDump) ++ "\n]"

/-- The bytes a run writes (history.py lines 240-245), `none` when the
run aborts with an exception before reaching the write. -/
def runOutput (chats : List Chat) (chat_name : String) (choice : Int)
    (history : List Msg) (limit : Nat) : Option String :=
  match main chats chat_name choice history limit with
  | Except.ok doc => some (json_dumps doc)
  | Except.error _ => none

/-! Concrete fixtures used by counterexamples and witnesses. -/

def dA : Date := ⟨2021, 1, 2, 10, 30, 5⟩

def dB : Date := ⟨2021, 1, 3, 9, 0, 0⟩

def chatA : Chat := ⟨7, "NewsCo Channel"⟩

def senderNews : Sender := Sender.channel "NewsCo" (some "newsco")

def msgChan : Msg :=
  ⟨101, dA, some senderNews, some 7, some 7, some "hello", false, some 5, none⟩

def msgChanLater : Msg :=
  ⟨105, dB, some senderNews, some 7, some 7, some "again", true, some 6, some 101⟩

def msgBadSender : Msg :=
  ⟨102, dB, none, none, some 7, some "x", false, none, none⟩

def msgNamelessUser : Msg :=
  ⟨103, dB, some (Sender.user none (some "") none), some 9, some 7, some "anon",
    true, none, none⟩

def msgNullBody : Msg :=
  ⟨104, dB, some (Sender.channel "NewsCo" none), some 7, some 7, none, false,
    none, none⟩

/-- The record the pipeline emits for `msgChan`. -/
def recChan : Record := mkRecord chatA "channel" "NewsCo" senderNews msgChan

/-- The record the pipeline emits for `msgChanLater`. -/
def recChanLater : Record :=
  mkRecord chatA "channel" "NewsCo" senderNews msgChanLater

/-- The record the pipeline emits for `msgNullBody`. -/
def recNullBody : Record :=
  mkRecord chatA "channel" "NewsCo" (Sender.channel "NewsCo" none) msgNullBody

def chatB : Chat := ⟨8, "NewsCo Extra"⟩

/-! Order lemmas for the date comparison. -/

theorem lexLe_refl : ∀ l : List Nat, lexLe l l = true
  | [] => rfl
  | a :: as => by simp [lexLe, Nat.lt_irrefl, lexLe_refl as]

theorem lexLe_cons (a b : Nat) (as bs : List Nat) :
    lexLe (a :: as) (b :: bs) = true ↔ a < b ∨ (a = b ∧ lexLe as bs = true) := by
  simp only [lexLe]
  by_cases h1 : a < b
  · simp [h1]
  · by_cases h2 : b < a
    · simp [h1, h2]
      omega
    · have hab : a = b := by omega
      simp [h1, h2, hab]

theorem lexLe_trans : ∀ xs ys zs : List Nat,
    lexLe xs ys = true → lexLe ys zs = true → lexLe xs zs = true
  | [], _, _, _, _ => rfl
  | _ :: _, [], _, h, _ => by simp [lexLe] at h
  | _ :: _, _ :: _, [], _, h => by simp [lexLe] at h
  | x :: xs, y :: ys, z :: zs, h1, h2 => by
    rw [lexLe_cons] at h1 h2 ⊢
    rcases h1 with h1 | ⟨rfl, h1⟩
    · rcases h2 with h2 | ⟨rfl, h2⟩
      · exact Or.inl (Nat.lt_trans h1 h2)
      · exact Or.inl h1
    · rcases h2 with h2 | ⟨rfl, h2⟩
      · exact Or.inl h2
      · exact Or.inr ⟨rfl, lexLe_trans xs ys zs h1 h2⟩

theorem lexLe_total : ∀ xs ys : List Nat, lexLe xs ys = true ∨ lexLe ys xs = true
  | [], _ => Or.inl rfl
  | _ :: _, [] => Or.inr rfl
  | x :: xs, y :: ys => by
    rw [lexLe_cons, lexLe_cons]
    rcases Nat.lt_trichotomy x y with h | h | h
    · exact Or.inl (Or.inl h)
    · rcases lexLe_total xs ys with ht | ht
      · exact Or.inl (Or.inr ⟨h, ht⟩)
      · exact Or.inr (Or.inr ⟨h.symm, ht⟩)
    · exact Or.inr (Or.inl h)

instance : IsTrans Msg msgLeP :=
  ⟨fun _ _ _ h1 h2 => lexLe_trans _ _ _ h1 h2⟩

instance : IsTotal Msg msgLeP :=
  ⟨fun a b => lexLe_total a.date.toList b.date.toList⟩

theorem msgLeP_of_date_eq {m1 m2 : Msg} (h : m1.date = m2.date) : msgLeP m1 m2 := by
  unfold msgLeP msgLe
  rw [h]
  exact lexLe_refl _

/-! Field lookups on a built record. -/

theorem field_mkRecord_id (chat : Chat) (t n : String) (s : Sender) (m : Msg) :
    field (mkRecord chat t n s m) "message_id" = some (jint m.id) := rfl

theorem field_mkRecord_date (chat : Chat) (t n : String) (s : Sender) (m : Msg) :
    field (mkRecord chat t n s m) "date" = some (jstr (dateFormat m.date)) := rfl

theorem field_mkRecord_type (chat : Chat) (t n : String) (s : Sender) (m : Msg) :
    field (mkRecord chat t n s m) "message_type" =
      some (jstr (if m.voice then "voice" else "text")) := rfl

theorem field_mkRecord_message (chat : Chat) (t n : String) (s : Sender) (m : Msg) :
    field (mkRecord chat t n s m) "message" = some (jstr (pyStr m.message)) := rfl

theorem keys_mkRecord (chat : Chat) (t n : String) (s : Sender) (m : Msg) :
    (mkRecord chat t n s m).map Prod.fst = recordKeys := rfl

/-! Inversion of one loop iteration. -/

theorem buildRecord_ok_some {chat : Chat} {st st2 : LoopState} {m : Msg} {r : Record}
    (h : buildRecord chat st m = Except.ok (st2, some r)) :
    ∃ t n s, st.sender_type = some t ∧ st.sender_name = some n ∧
      m.sender = some s ∧ st2 = st ∧ r = mkRecord chat t n s m := by
  unfold buildRecord at h
  cases hst : st.sender_type with
  | none => rw [hst] at h; cases h
  | some t =>
    rw [hst] at h
    cases hsn : st.sender_name with
    | none => rw [hsn] at h; cases h
    | some n =>
      rw [hsn] at h
      cases hs : m.sender with
      | none => rw [hs] at h; cases h
      | some s =>
        rw [hs] at h
        simp only [Except.ok.injEq, Prod.mk.injEq, Option.some.injEq] at h
        exact ⟨t, n, s, rfl, rfl, rfl, h.1.symm, h.2.symm⟩

theorem processMessage_ok_some {chat : Chat} {st st2 : LoopState} {m : Msg} {r : Record}
    (h : processMessage chat st m = Except.ok (st2, some r)) :
    ∃ t n s, m.sender = some s ∧ r = mkRecord chat t n s m ∧
      isNamelessUser m = false := by
  cases hs : m.sender with
  | none =>
    simp only [processMessage, hs] at h
    obtain ⟨t, n, s, _, _, hsend, _, _⟩ := buildRecord_ok_some h
    rw [hs] at hsend
    cases hsend
  | some s =>
    cases s with
    | user fn ln un =>
      simp only [processMessage, hs] at h
      by_cases h1 : truthyStr fn && truthyStr ln
      · rw [if_pos h1] at h
        obtain ⟨t, n, s2, _, _, hsend, _, hr⟩ := buildRecord_ok_some h
        rw [hs] at hsend
        cases hsend
        refine ⟨t, n, Sender.user fn ln un, rfl, hr, ?_⟩
        simp only [isNamelessUser, hs]
        simp only [Bool.and_eq_true] at h1
        simp [h1.1]
      · rw [if_neg h1] at h
        by_cases h2 : truthyStr fn && !truthyStr ln
        · rw [if_pos h2] at h
          obtain ⟨t, n, s2, _, _, hsend, _, hr⟩ := buildRecord_ok_some h
          rw [hs] at hsend
          cases hsend
          refine ⟨t, n, Sender.user fn ln un, rfl, hr, ?_⟩
          simp only [isNamelessUser, hs]
          simp only [Bool.and_eq_true] at h2
          simp [h2.1]
        · rw [if_neg h2] at h
          by_cases h3 : !truthyStr fn && truthyStr ln
          · rw [if_pos h3] at h
            obtain ⟨t, n, s2, _, _, hsend, _, hr⟩ := buildRecord_ok_some h
            rw [hs] at hsend
            cases hsend
            refine ⟨t, n, Sender.user fn ln un, rfl, hr, ?_⟩
            simp only [isNamelessUser, hs]
            simp only [Bool.and_eq_true] at h3
            simp [h3.2]
          · rw [if_neg h3] at h
            cases h
    | channel title un =>
      simp only [processMessage, hs] at h
      obtain ⟨t, n, s2, _, _, hsend, _, hr⟩ := buildRecord_ok_some h
      rw [hs] at hsend
      cases hsend
      refine ⟨t, n, Sender.channel title un, rfl, hr, ?_⟩
      simp [isNamelessUser, hs]

/-- Structure of a successful run of the message loop: the records come,
in order, from a subsequence of the input messages, none of which is a
nameless-user message, and every record carries the full key list. -/
theorem processMessages_ok_spec (chat : Chat) :
    ∀ (msgs : List Msg) (st : LoopState) (recs : List Record),
    processMessages chat st msgs = Except.ok recs →
    ∃ sub : List Msg, sub.Sublist msgs ∧
      recs.map (fun r => field r "date") =
        sub.map (fun m => some (jstr (dateFormat m.date))) ∧
      (∀ r ∈ recs, ∃ m, m ∈ sub ∧ field r "message_id" = some (jint m.id) ∧
        isNamelessUser m = false) ∧
      (∀ r ∈ recs, r.map Prod.fst = recordKeys)
  | [], st, recs, h => by
    simp only [processMessages] at h
    cases h
    exact ⟨[], List.Sublist.refl _, rfl, by simp, by simp⟩
  | m :: ms, st, recs, h => by
    cases hp : processMessage chat st m with
    | error e =>
      simp only [processMessages, hp] at h
      cases h
    | ok p =>
      obtain ⟨st2, or⟩ := p
      cases or with
      | none =>
        simp only [processMessages, hp] at h
        obtain ⟨sub, hsub, hdates, hids, hkeys⟩ :=
          processMessages_ok_spec chat ms st2 recs h
        exact ⟨sub, hsub.cons m, hdates, hids, hkeys⟩
      | some r =>
        simp only [processMessages, hp] at h
        cases hrest : processMessages chat st2 ms with
        | error e =>
          simp only [hrest] at h
          cases h
        | ok recs2 =>
          simp only [hrest] at h
          cases h
          obtain ⟨sub, hsub, hdates, hids, hkeys⟩ :=
            processMessages_ok_spec chat ms st2 recs2 hrest
          obtain ⟨t, n, s, hsend, hr, hnl⟩ := processMessage_ok_some hp
          refine ⟨m :: sub, hsub.cons₂ m, ?_, ?_, ?_⟩
          · simp only [List.map_cons, hdates, hr, field_mkRecord_date]
          · intro r2 hr2
            rcases List.mem_cons.mp hr2 with rfl | hr2
            · exact ⟨m, List.mem_cons_self _ _,
                by rw [hr]; exact field_mkRecord_id _ _ _ _ _, hnl⟩
            · obtain ⟨m2, hm2, hfa, hfb⟩ := hids r2 hr2
              exact ⟨m2, List.mem_cons_of_mem _ hm2, hfa, hfb⟩
          · intro r2 hr2
            rcases List.mem_cons.mp hr2 with rfl | hr2
            · rw [hr]; exact keys_mkRecord _ _ _ _ _
            · exact hkeys r2 hr2

/-- Python indexing with a nonnegative in-range index returns the
element. -/
theorem pyIndex_ofNat {α : Type} (l : List α) (n : Nat) (a : α)
    (h : l[n]? = some a) : pyIndex l (n : Int) = Except.ok a := by
  have h1 : ¬ ((n : Int) < 0) := by omega
  simp only [pyIndex, if_neg h1, Int.toNat_ofNat, h]

/-- Stability of the pre-normalization sort: an equal-date pair keeps
its relative order. -/
theorem sortHistory_stable_pair {m1 m2 : Msg} {history : List Msg}
    (hd : m1.date = m2.date) (h : List.Sublist [m1, m2] history) :
    List.Sublist [m1, m2] (sortHistory history) :=
  List.pair_sublist_insertionSort (msgLeP_of_date_eq hd) h

/-- C1 counterexample: a chat list with no match for the query makes
`find_chat_by_name` raise the IndexError of `found_chats[0]` on the
empty match list, not a NotFoundError. -/
theorem resolve_no_match_counterexample :
    (∀ c ∈ [chatA], strContains c.name "zzz" = false) ∧
    find_chat_by_name [chatA] "zzz" 1 = Except.error PyError.indexError ∧
    find_chat_by_name [chatA] "zzz" 1 ≠ Except.error PyError.notFoundError := by
  refine ⟨?_, ?_, ?_⟩ <;> decide

/-- C1 (amended): for every chat list in which no chat display name
contains the query, resolution fails — it raises the IndexError from
indexing the empty candidate list — rather than returning a chat. -/
theorem resolve_no_match_fails_with_index_error (chats : List Chat) (q : String)
    (choice : Int) (h : ∀ c ∈ chats, strContains c.name q = false) :
    find_chat_by_name chats q choice = Except.error PyError.indexError := by
  have hf : chats.filter (fun c => strContains c.name q) = [] :=
    List.filter_eq_nil_iff.mpr (by intro a ha; simp [h a ha])
  simp only [find_chat_by_name]
  rw [hf]
  rfl

/-- Witness for the amended C1 at a concrete one-chat list. -/
theorem resolve_no_match_fails_with_index_error_w :
    find_chat_by_name [chatA] "zzz" 1 = Except.error PyError.indexError :=
  resolve_no_match_fails_with_index_error [chatA] "zzz" 1 (by decide)

/-- C2: a message whose sender is neither a recognized user nor a
channel does not get excluded with the run continuing; the whole run
aborts. With a previously classified message the record build raises
AttributeError reading `.username` on the None sender; as the first
message it raises UnboundLocalError on the never-assigned `sender_type`.
In neither case is a document produced. -/
theorem unknown_sender_aborts_run :
    main [chatA] "News" 1 [msgChan, msgBadSender] 10 =
      Except.error PyError.attributeError ∧
    main [chatA] "News" 1 [msgBadSender] 10 =
      Except.error PyError.unboundLocalError := by
  exact ⟨by decide, by decide⟩

/-- C8: with more than one matching chat and a selection k with
1 <= k <= number of matches, resolution returns the k-th match in
listing order. -/
theorem resolve_ambiguous_returns_kth (chats : List Chat) (q : String) (k : Nat)
    (hN : 1 < (chats.filter (fun c => strContains c.name q)).length)
    (hk1 : 1 ≤ k) (c : Chat)
    (hc : (chats.filter (fun c => strContains c.name q))[k - 1]? = some c) :
    find_chat_by_name chats q (k : Int) = Except.ok c := by
  simp only [find_chat_by_name]
  rw [if_pos hN]
  have hk : (k : Int) - 1 = ((k - 1 : Nat) : Int) := by omega
  rw [hk]
  exact pyIndex_ofNat _ _ _ hc

/-- Witness for C8: two matches, selection 2 returns the second. -/
theorem resolve_ambiguous_returns_kth_w :
    find_chat_by_name [chatA, chatB] "News" ((2 : Nat) : Int) = Except.ok chatB :=
  resolve_ambiguous_returns_kth [chatA, chatB] "News" 2 (by decide) (by decide)
    chatB (by decide)

/-- C10: the pre-normalization sort is stable, so two messages with
equal timestamps keep the relative order they had in the fetched
sequence. -/
theorem equal_timestamp_order_preserved (history : List Msg) (m1 m2 : Msg)
    (hd : m1.date = m2.date) (h : List.Sublist [m1, m2] history) :
    List.Sublist [m1, m2] (sortHistory history) :=
  sortHistory_stable_pair hd h

/-- Witness for C10 at two concrete equal-date messages. -/
theorem equal_timestamp_order_preserved_w :
    List.Sublist [msgBadSender, msgNamelessUser]
      (sortHistory [msgBadSender, msgNamelessUser]) :=
  equal_timestamp_order_preserved [msgBadSender, msgNamelessUser] msgBadSender
    msgNamelessUser rfl (List.Sublist.refl _)

/-- C9: the pipeline is a function of its inputs — two runs with the
same chat list, query, disambiguation choice, fetched history and limit
produce byte-identical output documents — and ties at equal timestamps
are broken stably, by fetched order. -/
theorem pipeline_deterministic (c1 c2 : List Chat) (q1 q2 : String) (k1 k2 : Int)
    (h1 h2 : List Msg) (l1 l2 : Nat) (hc : c1 = c2) (hq : q1 = q2)
    (hk : k1 = k2) (hh : h1 = h2) (hl : l1 = l2) :
    runOutput c1 q1 k1 h1 l1 = runOutput c2 q2 k2 h2 l2 ∧
    ∀ m1 m2 : Msg, m1.date = m2.date → List.Sublist [m1, m2] h1 →
      List.Sublist [m1, m2] (sortHistory h1) := by
  subst hc hq hk hh hl
  exact ⟨rfl, fun m1 m2 hd hs => sortHistory_stable_pair hd hs⟩

/-- Witness for C9 at a concrete input. -/
theorem pipeline_deterministic_w :
    runOutput [chatA] "News" 1 [msgChan] 5 = runOutput [chatA] "News" 1 [msgChan] 5 ∧
    ∀ m1 m2 : Msg, m1.date = m2.date → List.Sublist [m1, m2] [msgChan] →
      List.Sublist [m1, m2] (sortHistory [msgChan]) :=
  pipeline_deterministic [chatA] [chatA] "News" "News" 1 1 [msgChan] [msgChan] 5 5
    rfl rfl rfl rfl rfl

/-- C3: on a successful run, the records of the exported document are,
in order, the formatted images of an ascending sequence of message
timestamps; the document never exceeds the requested limit; and the run
computes the same document as a run fed the sorted history already
truncated to the first limit messages. -/
theorem export_sorted_ascending_and_truncated (chats : List Chat) (q : String)
    (choice : Int) (history : List Msg) (limit : Nat) (doc : List Record)
    (h : main chats q choice history limit = Except.ok doc) :
    (∃ dates : List Date, dates.Pairwise (fun a b => dateLe a b = true) ∧
      doc.map (fun r => field r "date") =
        dates.map (fun d => some (jstr (dateFormat d)))) ∧
    doc.length ≤ limit ∧
    main chats q choice history limit =
      main chats q choice ((sortHistory history).take limit) limit := by
  cases hfc : find_chat_by_name chats q choice with
  | error e => simp only [main, hfc] at h; cases h
  | ok chat =>
    simp only [main, hfc] at h
    obtain ⟨sub, hsub, hdates, hids, hkeys⟩ := processMessages_ok_spec chat _ _ _ h
    have hsorted : ((sortHistory history).take limit).Pairwise msgLeP :=
      List.Pairwise.sublist (List.take_sublist _ _)
        (List.sorted_insertionSort msgLeP history)
    have hsubsorted : sub.Pairwise msgLeP := List.Pairwise.sublist hsub hsorted
    refine ⟨⟨sub.map (fun m => m.date), ?_, ?_⟩, ?_, ?_⟩
    · rw [List.pairwise_map]
      exact hsubsorted
    · rw [List.map_map]
      exact hdates
    · have h1 : doc.length = sub.length := by
        have h2 := congrArg List.length hdates
        simpa using h2
      have h2 : sub.length ≤ ((sortHistory history).take limit).length :=
        hsub.length_le
      have h3 : ((sortHistory history).take limit).length ≤ limit := by
        simp [List.length_take]
      omega
    · simp only [main, hfc]
      have hst : sortHistory ((sortHistory history).take limit) =
          (sortHistory history).take limit :=
        List.Sorted.insertionSort_eq hsorted
      rw [hst, List.take_take, Nat.min_self]

/-- Witness for C3: a two-message history fetched newest-first comes out
oldest-first. -/
theorem export_sorted_ascending_and_truncated_w :
    (∃ dates : List Date, dates.Pairwise (fun a b => dateLe a b = true) ∧
      [recChan, recChanLater].map (fun r => field r "date") =
        dates.map (fun d => some (jstr (dateFormat d)))) ∧
    ([recChan, recChanLater] : List Record).length ≤ 5 ∧
    main [chatA] "News" 1 [msgChanLater, msgChan] 5 =
      main [chatA] "News" 1 ((sortHistory [msgChanLater, msgChan]).take 5) 5 :=
  export_sorted_ascending_and_truncated [chatA] "News" 1 [msgChanLater, msgChan]
    5 [recChan, recChanLater] (by decide)

/-- C4: a message whose sender is a user with neither a (truthy) first
name nor last name contributes no record to the exported document: on a
successful run, no record carries its message id (ids assumed unique in
the fetched history). -/
theorem nameless_user_message_absent (chats : List Chat) (q : String)
    (choice : Int) (history : List Msg) (limit : Nat) (doc : List Record)
    (m : Msg) (_hm : m ∈ history) (hnl : isNamelessUser m = true)
    (huniq : ∀ m2 ∈ history, m2.id = m.id → m2 = m)
    (h : main chats q choice history limit = Except.ok doc) :
    ∀ r ∈ doc, field r "message_id" ≠ some (jint m.id) := by
  cases hfc : find_chat_by_name chats q choice with
  | error e => simp only [main, hfc] at h; cases h
  | ok chat =>
    simp only [main, hfc] at h
    obtain ⟨sub, hsub, hdates, hids, hkeys⟩ := processMessages_ok_spec chat _ _ _ h
    intro r hr heq
    obtain ⟨m2, hm2, hid2, hnl2⟩ := hids r hr
    have hideq : m.id = m2.id := by
      have h2 := heq.symm.trans hid2
      simpa using h2
    have hmem : m2 ∈ history := by
      have h3 : m2 ∈ (sortHistory history).take limit := hsub.subset hm2
      have h4 : m2 ∈ sortHistory history :=
        (List.take_sublist _ _).subset h3
      simpa [sortHistory, List.mem_insertionSort] using h4
    have h5 : m2 = m := huniq m2 hmem hideq.symm
    rw [h5] at hnl2
    rw [hnl2] at hnl
    cases hnl

/-- Witness for C4: the nameless-user message 103 yields no record. -/
theorem nameless_user_message_absent_w :
    field recChan "message_id" ≠ some (jint msgNamelessUser.id) :=
  nameless_user_message_absent [chatA] "News" 1 [msgChan, msgNamelessUser] 10
    [recChan] msgNamelessUser (by decide) (by decide) (by decide) (by decide)
    recChan (by simp)

/-- C5 counterexample: a message with a null body (a telethon service
message) is exported with the message field equal to the string "None" —
Python `str(None)` — not the empty string. -/
theorem null_body_message_field_counterexample :
    msgNullBody.message = none ∧
    main [chatA] "News" 1 [msgNullBody] 10 = Except.ok [recNullBody] ∧
    field recNullBody "message" = some (jstr "None") ∧
    some (jstr "None") ≠ some (jstr "") := by
  refine ⟨by decide, by decide, by decide, by decide⟩

/-- C5 (amended): the message field of every emitted record is the raw
body passed through Python str — the body itself when it is a string
(empty string exactly when the body is the empty string), and the string
"None" when the body is null — and it is never JSON null. -/
theorem message_field_is_str_of_body (chat : Chat) (st st2 : LoopState)
    (m : Msg) (r : Record)
    (h : processMessage chat st m = Except.ok (st2, some r)) :
    field r "message" = some (jstr (pyStr m.message)) ∧
    (m.message = some "" → field r "message" = some (jstr "")) ∧
    field r "message" ≠ some jnull := by
  obtain ⟨t, n, s, hsend, hr, hnl⟩ := processMessage_ok_some h
  subst hr
  refine ⟨field_mkRecord_message _ _ _ _ _, ?_, ?_⟩
  · intro hb
    rw [field_mkRecord_message _ _ _ _ _, hb]
    rfl
  · rw [field_mkRecord_message _ _ _ _ _]
    simp

/-- Witness for the amended C5 at a concrete channel message. -/
theorem message_field_is_str_of_body_w :
    field recChan "message" = some (jstr (pyStr msgChan.message)) ∧
    (msgChan.message = some "" → field recChan "message" = some (jstr "")) ∧
    field recChan "message" ≠ some jnull :=
  message_field_is_str_of_body chatA ⟨none, none⟩
    ⟨some "channel", some "NewsCo"⟩ msgChan recChan (by decide)

/-- C6: the message type of an emitted record is "voice" exactly when
the message carries the voice flag, and "text" otherwise. -/
theorem message_type_voice_iff (chat : Chat) (st st2 : LoopState) (m : Msg)
    (r : Record) (h : processMessage chat st m = Except.ok (st2, some r)) :
    field r "message_type" = some (jstr (if m.voice then "voice" else "text")) ∧
    (field r "message_type" = some (jstr "voice") ↔ m.voice = true) := by
  obtain ⟨t, n, s, hsend, hr, hnl⟩ := processMessage_ok_some h
  subst hr
  refine ⟨field_mkRecord_type _ _ _ _ _, ?_⟩
  rw [field_mkRecord_type _ _ _ _ _]
  cases hv : m.voice
  · simp [show ("text" : String) ≠ "voice" by decide]
  · simp

/-- Witness for C6 at a concrete voice message. -/
theorem message_type_voice_iff_w :
    field recChanLater "message_type" =
      some (jstr (if msgChanLater.voice then "voice" else "text")) ∧
    (field recChanLater "message_type" = some (jstr "voice") ↔
      msgChanLater.voice = true) :=
  message_type_voice_iff chatA ⟨none, none⟩ ⟨some "channel", some "NewsCo"⟩
    msgChanLater recChanLater (by decide)

/-- C7: every record of a successful run carries exactly the twelve
schema keys, in dict-literal order; values are JSON values, null when
the source field was absent. -/
theorem every_record_has_all_keys (chats : List Chat) (q : String)
    (choice : Int) (history : List Msg) (limit : Nat) (doc : List Record)
    (h : main chats q choice history limit = Except.ok doc) :
    ∀ r ∈ doc, r.map Prod.fst = recordKeys := by
  cases hfc : find_chat_by_name chats q choice with
  | error e => simp only [main, hfc] at h; cases h
  | ok chat =>
    simp only [main, hfc] at h
    obtain ⟨sub, hsub, hdates, hids, hkeys⟩ := processMessages_ok_spec chat _ _ _ h
    exact hkeys

/-- Witness for C7 at a concrete run. -/
theorem every_record_has_all_keys_w :
    List.map Prod.fst recChan = recordKeys :=
  every_record_has_all_keys [chatA] "News" 1 [msgChan] 5 [recChan] (by decide)
    recChan (by simp)

end TgHistory
